import Mathlib

/-!
Verification of the `msx_grid` self-update pipeline (`update.py`).

The live installation tree is modelled as a flat list of (relative path,
byte content) entries; a relative path is a list of path components and a
component is a list of characters (mirroring Python `str`).  A path
"exists as a directory" when it is a strict component-prefix of some
file entry, which matches `Path.is_dir` on a real tree.  All functions
are translated from `src/update.py`; network and archive I/O appear as
explicit inputs (download success flag, extracted entry list), and the
single exception source inside the merge loop (`shutil.copy2` failing)
is an injected failure index, matching the spec's failure-injection
vocabulary.
-/

namespace MsxUpdate

/-- A path component, e.g. `config` or `config.yaml` (Python `str` as a char list). -/
abbrev Comp := List Char

/-- A relative path: a list of components, e.g. `["config", "config.yaml"]`. -/
abbrev RPath := List Comp

/-- Raw file content as a byte list. -/
abbrev Bytes := List Nat

/-- A flat file system: entries of (relative path, bytes); lookup takes the first match. -/
abbrev FS := List (RPath × Bytes)

/-- Content of the regular file at `q`, if any (first matching entry). -/
def lookupFS : FS → RPath → Option Bytes
  | [], _ => none
  | (k, c) :: rest, q => if k == q then some c else lookupFS rest q

/-- `Path.is_file`: a regular file entry exists at `p`. -/
def isFileFS (fs : FS) (p : RPath) : Bool := (lookupFS fs p).isSome

/-- `Path.is_dir`: `p` is a strict component-prefix of some entry's path. -/
def isDirFS (fs : FS) (p : RPath) : Bool :=
  fs.any (fun e => (p != e.1) && p.isPrefixOf e.1)

/-- `Path.exists`: a file or a directory is at `p`. -/
def existsFS (fs : FS) (p : RPath) : Bool := isFileFS fs p || isDirFS fs p

/-- Write (create or overwrite) the regular file at `p` with content `c`
(`shutil.copy2` / `Path.write_bytes` onto a regular-file destination). -/
def writeFS (fs : FS) (p : RPath) (c : Bytes) : FS :=
  (p, c) :: fs.filter (fun e => e.1 != p)

/-- All entries at or below `p`, with their paths made relative to `p`
(the content of the directory tree rooted at `p`, as copied by `shutil.copytree`). -/
def subtreeFS : FS → RPath → List (RPath × Bytes)
  | [], _ => []
  | (k, c) :: rest, p =>
    if p.isPrefixOf k then (k.drop p.length, c) :: subtreeFS rest p
    else subtreeFS rest p

/-- Remove the file at `p` and every entry below it
(`Path.unlink` / `shutil.rmtree` combined, as in the restore loop). -/
def removeAtUnder (fs : FS) (p : RPath) : FS :=
  fs.filter (fun e => !(p.isPrefixOf e.1))

/-- Join path components with `/`, as `str(Path(...))` renders a relative path. -/
def pathStr : RPath → List Char
  | [] => []
  | [c] => c
  | c :: c2 :: rest => c ++ '/' :: pathStr (c2 :: rest)

/-- Helper for `comps`: split the remaining characters on `/`, with `acc`
holding the reversed current component. -/
def compsGo : List Char → List Char → List (List Char)
  | [], acc => [acc.reverse]
  | c :: r, acc => if c = '/' then acc.reverse :: compsGo r [] else compsGo r (c :: acc)

/-- Path components of a `/`-separated relative path string (`Path(item).parts`). -/
def comps (s : List Char) : RPath := compsGo s []

/-- Characters stripped by Python `str.strip()`: exactly the code points
for which `str.isspace()` holds in CPython — `\t \n \x0b \x0c \r`, the
separators `\x1c`-`\x1f`, space, next line `\x85`, no-break space `\xa0`,
and the Unicode space/separator code points. -/
def isPySpace (c : Char) : Bool :=
  (0x09 ≤ c.toNat && c.toNat ≤ 0x0D) ||
  (0x1C ≤ c.toNat && c.toNat ≤ 0x1F) ||
  c.toNat == 0x20 || c.toNat == 0x85 || c.toNat == 0xA0 ||
  c.toNat == 0x1680 ||
  (0x2000 ≤ c.toNat && c.toNat ≤ 0x200A) ||
  c.toNat == 0x2028 || c.toNat == 0x2029 || c.toNat == 0x202F ||
  c.toNat == 0x205F || c.toNat == 0x3000

/-- `str.strip()`: drop leading and trailing whitespace. -/
def stripWS (s : List Char) : List Char :=
  ((s.dropWhile isPySpace).reverse.dropWhile isPySpace).reverse

/-- `str.lower()` restricted to the ASCII range.  Exact for the prompt
comparisons against `"y"`: `Y` is the only code point whose Python
lowercase is `y`, and no other character's lowering (simple or full)
produces it, so equality with `"y"` is decided identically. -/
def asciiLower (s : List Char) : List Char :=
  s.map (fun c => if 'A' ≤ c ∧ c ≤ 'Z' then Char.ofNat (c.toNat + 32) else c)

/-- `input(...).strip().lower()` as applied to both interactive prompts. -/
def normalizeResp (s : List Char) : List Char := asciiLower (stripWS s)

/-- True for a UTF-8 continuation byte `0x80..0xBF`. -/
def isContByte (b : Nat) : Bool := 0x80 ≤ b && b ≤ 0xBF

/-- Strict UTF-8 decoding to a code-point list, `none` on invalid input
(Python `bytes.decode('utf-8')` raising `UnicodeDecodeError`). -/
def utf8Decode : List Nat → Option (List Nat)
  | [] => some []
  | b :: r =>
    if b ≤ 0x7F then
      (utf8Decode r).map (fun t => b :: t)
    else if 0xC2 ≤ b && b ≤ 0xDF then
      match r with
      | b2 :: r2 =>
        if isContByte b2 then
          (utf8Decode r2).map (fun t => ((b - 0xC0) * 64 + (b2 - 0x80)) :: t)
        else none
      | [] => none
    else if 0xE0 ≤ b && b ≤ 0xEF then
      match r with
      | b2 :: b3 :: r3 =>
        if (if b = 0xE0 then 0xA0 ≤ b2 && b2 ≤ 0xBF
            else if b = 0xED then 0x80 ≤ b2 && b2 ≤ 0x9F
            else isContByte b2) && isContByte b3 then
          (utf8Decode r3).map
            (fun t => ((b - 0xE0) * 4096 + (b2 - 0x80) * 64 + (b3 - 0x80)) :: t)
        else none
      | _ => none
    else if 0xF0 ≤ b && b ≤ 0xF4 then
      match r with
      | b2 :: b3 :: b4 :: r4 =>
        if (if b = 0xF0 then 0x90 ≤ b2 && b2 ≤ 0xBF
            else if b = 0xF4 then 0x80 ≤ b2 && b2 ≤ 0x8F
            else isContByte b2) && isContByte b3 && isContByte b4 then
          (utf8Decode r4).map
            (fun t => ((b - 0xF0) * 262144 + (b2 - 0x80) * 4096
                       + (b3 - 0x80) * 64 + (b4 - 0x80)) :: t)
        else none
      | _ => none
    else none

/-- Universal-newline translation done by text-mode `open(..., 'r')`:
`\r\n` and lone `\r` become `\n` (code points 13, 10). -/
def nlTranslate : List Nat → List Nat
  | [] => []
  | 13 :: 10 :: r => 10 :: nlTranslate r
  | 13 :: r => 10 :: nlTranslate r
  | c :: r => c :: nlTranslate r

/-- `open(p, 'r', encoding='utf-8').read()`: requires a regular file whose
bytes decode as UTF-8, then applies universal-newline translation;
`none` models the exception path. -/
def readText (fs : FS) (p : RPath) : Option (List Nat) :=
  (lookupFS fs p).bind (fun bs => (utf8Decode bs).map nlTranslate)

/-- The `preserve_items` set literal of `update_via_zip` (lines 188-197),
in source order. -/
def preserveItems : List (List Char) :=
  ["config/config.yaml".toList, "logs".toList, "__pycache__".toList, ".git".toList,
   "app.bin".toList, "app.build".toList, "app.dist".toList, "app.onefile-build".toList]

/-- A snapshot stored in `preserve_backup`: raw bytes for a file
(`read_bytes`), or the copied subtree for a directory (`copytree` to the
temporary workspace, entries relative to the item). -/
inductive Snap
  | file (c : Bytes)
  | dir (sub : List (RPath × Bytes))

/-- Snapshot one preserve item (lines 201-209): bytes if it is a regular
file, a subtree copy if it is a directory, nothing if it does not exist. -/
def snapItem (fs : FS) (item : List Char) : Option Snap :=
  let p := comps item
  if isFileFS fs p then (lookupFS fs p).map Snap.file
  else if isDirFS fs p then some (Snap.dir (subtreeFS fs p))
  else none

/-- The `preserve_backup` mapping: every preserve item that exists, with
its snapshot (lines 200-209). -/
def mkBackup (fs : FS) (items : List (List Char)) : List ((List Char) × Snap) :=
  items.filterMap (fun it => (snapItem fs it).map (fun s => (it, s)))

/-- Restore one preserved item (lines 253-264): a file snapshot is
written back to its path (`write_bytes` after `mkdir(parents=True)`);
for a directory snapshot whatever occupies the path is removed
(`unlink`/`rmtree`) and the staged copy is moved into place. -/
def restoreItem (cur : FS) (item : List Char) (s : Snap) : FS :=
  let p := comps item
  match s with
  | .file c => writeFS cur p c
  | .dir sub => (sub.map (fun e => (p ++ e.1, e.2))) ++ removeAtUnder cur p

/-- The restore loop over `preserve_backup.items()` (lines 252-264). -/
def restoreAll (cur : FS) (bk : List ((List Char) × Snap)) : FS :=
  bk.foldl (fun f pr => restoreItem f pr.1 pr.2) cur

/-- The merge-loop exclusion test (lines 234-238):
`str(target_file).startswith(preserve)` for any preserve item —
raw string-prefix matching on the rendered relative path. -/
def skipTest (r : RPath) : Bool :=
  preserveItems.any (fun p => p.isPrefixOf (pathStr r))

/-- A top-level entry of the extraction directory (`extract_dir.iterdir()`):
either a regular file or a directory with its recursive file list
(paths relative to the entry, in `os.walk` visit order). -/
inductive ExtEntry
  | file (name : Comp) (content : Bytes)
  | dir (name : Comp) (files : List (RPath × Bytes))

/-- Files reachable below an entry; `os.walk` on a regular file yields nothing. -/
def entryFiles : ExtEntry → List (RPath × Bytes)
  | .file _ _ => []
  | .dir _ fsx => fsx

/-- The `.git` directory name removed from `dirs` during the walk (lines 222-224). -/
def gitComp : Comp := ".git".toList

/-- Files visited by the merge walk: everything below `source_dir` except
files inside a directory named `.git` (pruned via `dirs.remove('.git')`). -/
def walkFiles (e : ExtEntry) : List (RPath × Bytes) :=
  (entryFiles e).filter (fun f => !(f.1.dropLast.any (fun c => c == gitComp)))

/-- `check_requirements_changed` (lines 123-135): `True` if either path
does not exist, otherwise compare the text-mode reads; any read failure
(`except Exception`) also yields `True`. -/
def check_requirements_changed (fsO : FS) (oldP : RPath) (fsN : FS) (newP : RPath) : Bool :=
  if !(existsFS fsO oldP) || !(existsFS fsN newP) then true
  else
    match readText fsO oldP, readText fsN newP with
    | some a, some b => a != b
    | _, _ => true

/-- State of the merge copy loop (lines 220-248): current tree, number of
files copied, and whether a copy raised. -/
structure MergeRes where
  fs : FS
  copied : Nat
  failed : Bool

/-- The merge copy loop (lines 229-248).  `failAt = some n` injects an
exception (`shutil.copy2` failing) at the n-th attempted copy, after `n`
files were already copied; skipped files do not count. -/
def mergeGo (failAt : Option Nat) : FS → List (RPath × Bytes) → Nat → MergeRes
  | fs, [], n => ⟨fs, n, false⟩
  | fs, (r, c) :: rest, n =>
    if skipTest r then mergeGo failAt fs rest n
    else if failAt = some n then ⟨fs, n, true⟩
    else mergeGo failAt (writeFS fs r c) rest (n + 1)

/-- The value `update_via_zip` hands back to `main`: `bare` models the
single-value `return False` at lines 169 and 183, `pair` the tuple
returns at lines 266 and 270. -/
inductive ZipRet
  | bare
  | pair (success reqChanged : Bool)
deriving DecidableEq

/-- Observable outcome of `update_via_zip`: live tree, returned value,
copy count, whether the restore loop ran to completion, and whether an
error message was printed. -/
structure ZipRes where
  fs : FS
  ret : ZipRet
  filesUpdated : Nat
  restoreRan : Bool
  errorPrinted : Bool

/-- `True` exactly when the returned value is the success tuple. -/
def ZipRes.succeeded (z : ZipRes) : Bool :=
  match z.ret with
  | .pair true _ => true
  | _ => false

/-- The path of `requirements.txt` at the repository root. -/
def reqPath : RPath := ["requirements.txt".toList]

/-- `update_via_zip` (lines 152-276).  `downloadOk` is `download_file`'s
result; `archive` lists the extraction directory's top-level entries;
`failAt` injects a copy failure into the merge loop.  The commit-info
call and the temporary workspace live outside the installation tree and
have no effect on it. -/
def update_via_zip (fs : FS) (downloadOk : Bool) (archive : List ExtEntry)
    (failAt : Option Nat) : ZipRes :=
  if !downloadOk then ⟨fs, .bare, 0, false, true⟩
  else
    match archive with
    | [] => ⟨fs, .bare, 0, false, true⟩
    | src :: _ =>
      let bk := mkBackup fs preserveItems
      let rc := if existsFS fs reqPath && existsFS (entryFiles src) reqPath
                then check_requirements_changed fs reqPath (entryFiles src) reqPath
                else false
      let m := mergeGo failAt fs (walkFiles src) 0
      if m.failed then ⟨m.fs, .pair false false, m.copied, false, true⟩
      else ⟨restoreAll m.fs bk, .pair true rc, m.copied, true, false⟩

/-- The live configuration file path `config/config.yaml`. -/
def configPath : RPath := comps "config/config.yaml".toList

/-- The timestamped backup path `config/config.yaml.backup.{ts}`. -/
def configBackupPath (ts : List Char) : RPath :=
  ["config".toList, "config.yaml.backup.".toList ++ ts]

/-- `backup_config` (lines 56-64): copy the configuration file to a
timestamped sibling if it exists; `Except.error` models `shutil.copy2`
raising when the path exists but is not a regular file. -/
def backup_config (fs : FS) (ts : List Char) : Except Unit (FS × Option RPath) :=
  if existsFS fs configPath then
    match lookupFS fs configPath with
    | some c => .ok (writeFS fs (configBackupPath ts) c, some (configBackupPath ts))
    | none => .error ()
  else .ok (fs, none)

/-- `restore_config` (lines 66-71): copy the backup back over the live
configuration path when the backup exists; the Bool reports whether the
copy ran.  `Except.error` models `copy2` raising on a non-file source. -/
def restore_config (fs : FS) (bp : RPath) : Except Unit (FS × Bool) :=
  if existsFS fs bp then
    match lookupFS fs bp with
    | some c => .ok (writeFS fs configPath c, true)
    | none => .error ()
  else .ok (fs, false)

/-- Kind of a status line printed through the `print_*` helpers. -/
inductive MsgKind
  | info
  | success
  | warning
  | error
deriving DecidableEq

/-- `run_command` (lines 48-54): `subprocess.run(..., check=check)` raises
`CalledProcessError` on a non-zero exit when `check` is set, and
`run_command` catches it itself, returning `(None, str(e), returncode)`;
on success it returns the stripped output and code. -/
def run_command (stdout stderr : List Char) (code : Int) (check : Bool) :
    Option (List Char) × List Char × Int :=
  if check && code != 0 then (none, "CalledProcessError".toList, code)
  else (some (stripWS stdout), stripWS stderr, code)

/-- `update_dependencies` (lines 137-150): skip with a warning when
`requirements.txt` is missing; otherwise call `run_command` (default
`check=True`) and print the success message.  The `except` branch that
would print an error is unreachable for a non-zero pip exit because
`run_command` swallows `CalledProcessError` and returns a tuple. -/
def update_dependencies (reqExists : Bool) (pipStdout pipStderr : List Char)
    (pipExit : Int) : List MsgKind :=
  if !reqExists then [.info, .warning]
  else
    let _r := run_command pipStdout pipStderr pipExit true
    [.info, .info, .success]

/-- Observable outcome of `main` (lines 278-315) together with the
module-level handler (lines 317-325): final tree, process exit code,
whether an unhandled exception reached the top-level handler, whether
the run was cancelled at the prompt, whether `restore_config` actually
copied the backup back, whether the dependency-reinstall prompt was
shown, and the messages printed by `update_dependencies`. -/
structure MainRes where
  fs : FS
  exitCode : Nat
  crashed : Bool
  cancelled : Bool
  configRestored : Bool
  depPromptShown : Bool
  depMsgs : List MsgKind

/-- `main` (lines 278-315).  The backup is taken before the confirmation
prompt; `update_via_zip`'s result is unpacked as a tuple at line 296, so
a `bare` return raises `TypeError`, which the module-level handler turns
into exit code 1 without restoring the configuration. -/
def main (fs0 : FS) (ts confirmResp : List Char) (downloadOk : Bool)
    (archive : List ExtEntry) (failAt : Option Nat)
    (depResp pipStdout pipStderr : List Char) (pipExit : Int) : MainRes :=
  match backup_config fs0 ts with
  | .error _ => ⟨fs0, 1, true, false, false, false, []⟩
  | .ok (fs1, bp) =>
    if normalizeResp confirmResp ≠ "y".toList then
      ⟨fs1, 0, false, true, false, false, []⟩
    else
      let z := update_via_zip fs1 downloadOk archive failAt
      match z.ret with
      | .bare => ⟨z.fs, 1, true, false, false, false, []⟩
      | .pair s rc =>
        if s then
          if rc then
            let msgs := if normalizeResp depResp = "y".toList
              then update_dependencies (existsFS z.fs reqPath) pipStdout pipStderr pipExit
              else []
            ⟨z.fs, 0, false, false, false, true, msgs⟩
          else ⟨z.fs, 0, false, false, false, false, []⟩
        else
          match bp with
          | none => ⟨z.fs, 0, false, false, false, false, []⟩
          | some p =>
            match restore_config z.fs p with
            | .error _ => ⟨z.fs, 1, true, false, false, false, []⟩
            | .ok (fs2, did) => ⟨fs2, 0, false, false, did, false, []⟩

/-! ### Concrete fixtures used by witnesses and counterexamples -/

/-- Path of a log file inside the preserved `logs` directory. -/
def wLogPath : RPath := ["logs".toList, "a.log".toList]

/-- A small live tree: configuration file, a log file, a `logs.txt` file
textually extending the preserved `logs` name, and a dependency manifest. -/
def wFS : FS :=
  [(configPath, [97]), (wLogPath, [1]), (["logs.txt".toList], [5]), (reqPath, [49])]

/-- A merge source whose files collide with preserved paths and with `logs.txt`. -/
def wSrc : ExtEntry :=
  ExtEntry.dir "m".toList
    [(["app.py".toList], [7]), (["logs.txt".toList], [6]), (wLogPath, [2]),
     (configPath, [98]), (reqPath, [50])]

/-- The extraction listing containing just `wSrc`. -/
def wArc : List ExtEntry := [wSrc]

/-- Relative path of `config/config.yaml.example`, which textually extends
the preserved `config/config.yaml` without being it or being inside it. -/
def wExPath : RPath := comps "config/config.yaml.example".toList

/-- A live tree with the configuration file and the `.example` sibling. -/
def wExFS : FS := [(configPath, [97]), (wExPath, [3])]

/-- A merge source shipping a new `config/config.yaml.example`. -/
def wExArc : List ExtEntry := [ExtEntry.dir "m".toList [(wExPath, [4])]]

/-- A merge source with two plain mergeable files (for the mid-merge abort). -/
def c3Arc : List ExtEntry :=
  [ExtEntry.dir "m".toList [(["a.py".toList], [9]), (["b.py".toList], [8])]]

/-- A live tree holding only the configuration file. -/
def c4FS : FS := [(configPath, [97])]

/-- Two manifests differing only in newline encoding: CRLF vs LF. -/
def c5FS : FS := [(["old.txt".toList], [97, 13, 10]), (["new.txt".toList], [97, 10])]

/-- A live tree with no `requirements.txt`. -/
def c6FS : FS := [(configPath, [97])]

/-- A merge source that does ship a `requirements.txt`. -/
def c6Src : ExtEntry := ExtEntry.dir "m".toList [(["app.py".toList], [9]), (reqPath, [50])]

/-- A live tree whose manifest differs from the incoming one. -/
def c8FS : FS := [(configPath, [97]), (reqPath, [49])]

/-- A merge source with a changed `requirements.txt` and a code file. -/
def c8Src : ExtEntry := ExtEntry.dir "m".toList [(["app.py".toList], [7]), (reqPath, [50])]

/-! ### Basic lemmas about the file-system model -/

theorem isPrefixOf_append_self {α : Type} [BEq α] [LawfulBEq α] (l t : List α) :
    l.isPrefixOf (l ++ t) = true := by
  induction l with
  | nil => simp [List.isPrefixOf]
  | cons a as ih => simp [List.isPrefixOf, ih]

theorem isPrefixOf_self {α : Type} [BEq α] [LawfulBEq α] (l : List α) :
    l.isPrefixOf l = true := by
  have h := isPrefixOf_append_self l []
  rwa [List.append_nil] at h

theorem eq_append_of_isPrefixOf {α : Type} [BEq α] [LawfulBEq α] :
    ∀ (p q : List α), p.isPrefixOf q = true → q = p ++ q.drop p.length
  | [], q, _ => by simp
  | _ :: _, [], h => by simp [List.isPrefixOf] at h
  | a :: as, b :: bs, h => by
    simp only [List.isPrefixOf, Bool.and_eq_true, beq_iff_eq] at h
    obtain ⟨h1, h2⟩ := h
    have ih := eq_append_of_isPrefixOf as bs h2
    simp only [List.length_cons, List.drop_succ_cons, List.cons_append]
    exact congrArg₂ (· :: ·) h1.symm ih

theorem ne_of_not_isPrefixOf {α : Type} [BEq α] [LawfulBEq α] {p q : List α}
    (h : p.isPrefixOf q = false) : p ≠ q := by
  intro he
  subst he
  rw [isPrefixOf_self] at h
  exact Bool.noConfusion h

theorem lookupFS_cons (k : RPath) (c : Bytes) (l : FS) (q : RPath) :
    lookupFS ((k, c) :: l) q = if k = q then some c else lookupFS l q := by
  simp [lookupFS]

theorem lookupFS_filter (fs : FS) (pred : RPath × Bytes → Bool) (q : RPath)
    (h : ∀ c : Bytes, pred (q, c) = true) :
    lookupFS (fs.filter pred) q = lookupFS fs q := by
  induction fs with
  | nil => rfl
  | cons e rest ih =>
    obtain ⟨k, c⟩ := e
    by_cases hk : k = q
    · subst hk
      rw [List.filter_cons_of_pos (h c), lookupFS_cons, lookupFS_cons, if_pos rfl, if_pos rfl]
    · cases hp : pred (k, c)
      · rw [List.filter_cons_of_neg (by simp [hp]), ih, lookupFS_cons, if_neg hk]
      · rw [List.filter_cons_of_pos hp, lookupFS_cons, if_neg hk, ih,
          lookupFS_cons, if_neg hk]

theorem lookupFS_writeFS_self (fs : FS) (p : RPath) (c : Bytes) :
    lookupFS (writeFS fs p c) p = some c := by
  rw [writeFS, lookupFS_cons, if_pos rfl]

theorem lookupFS_writeFS_ne (fs : FS) (p : RPath) (c : Bytes) (q : RPath) (h : q ≠ p) :
    lookupFS (writeFS fs p c) q = lookupFS fs q := by
  rw [writeFS, lookupFS_cons, if_neg (fun he => h he.symm)]
  exact lookupFS_filter fs _ q (fun c' => by simp [bne_iff_ne]; exact h)

theorem lookupFS_removeAtUnder_inside (fs : FS) (p q : RPath)
    (h : p.isPrefixOf q = true) :
    lookupFS (removeAtUnder fs p) q = none := by
  induction fs with
  | nil => rfl
  | cons e rest ih =>
    obtain ⟨k, c⟩ := e
    unfold removeAtUnder at ih ⊢
    cases hpk : p.isPrefixOf k
    · rw [List.filter_cons_of_pos (by simp [hpk]), lookupFS_cons,
        if_neg (fun he => by subst he; rw [h] at hpk; exact Bool.false_ne_true hpk.symm)]
      exact ih
    · rw [List.filter_cons_of_neg (by simp [hpk])]
      exact ih

theorem lookupFS_removeAtUnder_of_not (fs : FS) (p q : RPath)
    (h : p.isPrefixOf q = false) :
    lookupFS (removeAtUnder fs p) q = lookupFS fs q :=
  lookupFS_filter fs _ q (fun _ => by simp [h])

theorem lookupFS_append_some (A B : FS) (q : RPath) (c : Bytes)
    (h : lookupFS A q = some c) :
    lookupFS (A ++ B) q = some c := by
  induction A with
  | nil => simp [lookupFS] at h
  | cons e rest ih =>
    obtain ⟨k, c'⟩ := e
    rw [lookupFS_cons] at h
    by_cases hk : k = q
    · rw [if_pos hk] at h
      rw [List.cons_append, lookupFS_cons, if_pos hk]
      exact h
    · rw [if_neg hk] at h
      rw [List.cons_append, lookupFS_cons, if_neg hk]
      exact ih h

theorem lookupFS_append_none (A B : FS) (q : RPath)
    (h : lookupFS A q = none) :
    lookupFS (A ++ B) q = lookupFS B q := by
  induction A with
  | nil => rfl
  | cons e rest ih =>
    obtain ⟨k, c'⟩ := e
    rw [lookupFS_cons] at h
    by_cases hk : k = q
    · rw [if_pos hk] at h
      exact absurd h (by simp)
    · rw [if_neg hk] at h
      rw [List.cons_append, lookupFS_cons, if_neg hk]
      exact ih h

theorem lookupFS_mapSub_of_not (sub : List (RPath × Bytes)) (p q : RPath)
    (h : p.isPrefixOf q = false) :
    lookupFS (sub.map (fun e => (p ++ e.1, e.2))) q = none := by
  induction sub with
  | nil => rfl
  | cons e rest ih =>
    rw [List.map_cons, lookupFS_cons,
      if_neg (fun he => by rw [← he, isPrefixOf_append_self] at h; exact Bool.noConfusion h)]
    exact ih

theorem lookupFS_mapSub_subtree (fs : FS) (p t : RPath) :
    lookupFS ((subtreeFS fs p).map (fun e => (p ++ e.1, e.2))) (p ++ t) =
      lookupFS fs (p ++ t) := by
  induction fs with
  | nil => rfl
  | cons e rest ih =>
    obtain ⟨k, c⟩ := e
    cases hpk : p.isPrefixOf k
    · have hk : k ≠ p ++ t := fun he => by
        rw [he, isPrefixOf_append_self] at hpk
        exact Bool.noConfusion hpk
      have hstep : subtreeFS ((k, c) :: rest) p = subtreeFS rest p := by
        rw [subtreeFS, if_neg (by rw [hpk]; exact Bool.noConfusion)]
      rw [hstep, lookupFS_cons, if_neg hk]
      exact ih
    · have hk : k = p ++ k.drop p.length := eq_append_of_isPrefixOf p k hpk
      have hstep : subtreeFS ((k, c) :: rest) p =
          (k.drop p.length, c) :: subtreeFS rest p := by
        rw [subtreeFS, if_pos hpk]
      rw [hstep, List.map_cons, lookupFS_cons, lookupFS_cons, ← hk]
      by_cases he : k = p ++ t
      · rw [if_pos he, if_pos he]
      · rw [if_neg he, if_neg he]
        exact ih

theorem any_filter_same (fs : FS) (pred keep : RPath × Bytes → Bool)
    (h : ∀ e, keep e = false → pred e = false) :
    (fs.filter keep).any pred = fs.any pred := by
  induction fs with
  | nil => rfl
  | cons e rest ih =>
    cases hk : keep e
    · rw [List.filter_cons_of_neg (by simp [hk]), ih, List.any_cons, h e hk,
        Bool.false_or]
    · rw [List.filter_cons_of_pos hk, List.any_cons, List.any_cons, ih]

theorem existsFS_writeFS_of_not (fs : FS) (p : RPath) (c : Bytes) (q : RPath)
    (h : q.isPrefixOf p = false) :
    existsFS (writeFS fs p c) q = existsFS fs q := by
  have hqp : q ≠ p := ne_of_not_isPrefixOf h
  unfold existsFS isFileFS
  rw [lookupFS_writeFS_ne fs p c q hqp]
  unfold isDirFS writeFS
  rw [List.any_cons]
  have h1 : ((q != (p, c).1) && q.isPrefixOf (p, c).1) = false := by
    simp [h]
  rw [h1, Bool.false_or,
    any_filter_same fs _ _ (fun e he => by
      have : e.1 = p := by simpa [bne_iff_ne] using he
      simp [this, h])]

/-! ### Path-string lemmas: component prefixes imply string prefixes -/

theorem pathStr_append (a b : RPath) (ha : a ≠ []) (hb : b ≠ []) :
    pathStr (a ++ b) = pathStr a ++ '/' :: pathStr b := by
  induction a with
  | nil => exact absurd rfl ha
  | cons x xs ih =>
    cases xs with
    | nil =>
      cases b with
      | nil => exact absurd rfl hb
      | cons y ys => simp [pathStr]
    | cons x2 rest =>
      have h1 : (x :: x2 :: rest) ++ b = x :: ((x2 :: rest) ++ b) := rfl
      have h2 : (x2 :: rest) ++ b = x2 :: (rest ++ b) := rfl
      rw [h1, h2, pathStr, ← h2, ih (by simp) , pathStr]
      simp [List.append_assoc]

theorem preserve_wf :
    preserveItems.all (fun it => (pathStr (comps it) == it) && !(comps it).isEmpty) = true := by
  decide

theorem skipTest_of_comps_le (item : List Char) (hit : item ∈ preserveItems)
    (q : RPath) (hq : (comps item).isPrefixOf q = true) : skipTest q = true := by
  have hwf := preserve_wf
  rw [List.all_eq_true] at hwf
  have hx := hwf item hit
  rw [Bool.and_eq_true, beq_iff_eq] at hx
  obtain ⟨h1, h2⟩ := hx
  have h2' : comps item ≠ [] := by
    intro he
    rw [he] at h2
    exact Bool.noConfusion h2
  have hq' : q = comps item ++ q.drop (comps item).length :=
    eq_append_of_isPrefixOf _ _ hq
  rw [skipTest, List.any_eq_true]
  refine ⟨item, hit, ?_⟩
  cases hrest : q.drop (comps item).length with
  | nil =>
    rw [hq', hrest, List.append_nil, h1]
    exact isPrefixOf_self item
  | cons y ys =>
    rw [hq', hrest, pathStr_append _ _ h2' (by simp), h1]
    exact isPrefixOf_append_self item _

/-! ### The merge loop never touches a skip-matched path -/

theorem mergeGo_lookup_of_skip (failAt : Option Nat) (q : RPath)
    (hq : skipTest q = true) :
    ∀ (files : List (RPath × Bytes)) (fs : FS) (n : Nat),
      lookupFS (mergeGo failAt fs files n).fs q = lookupFS fs q := by
  intro files
  induction files with
  | nil => intro fs n; rfl
  | cons f rest ih =>
    intro fs n
    obtain ⟨r, c⟩ := f
    by_cases hs : skipTest r = true
    · rw [mergeGo, if_pos hs]
      exact ih fs n
    · have hrq : r ≠ q := fun he => hs (he ▸ hq)
      rw [mergeGo, if_neg (by rw [Bool.not_eq_true] at hs; rw [hs]; exact Bool.noConfusion)]
      by_cases hf : failAt = some n
      · rw [if_pos hf]
      · rw [if_neg hf, ih]
        exact lookupFS_writeFS_ne fs r c q (fun he => hrq he.symm)

/-! ### Snapshot and restore: the preservation round-trip -/

theorem snapItem_file_eq (fs : FS) (item : List Char) (c : Bytes)
    (h : snapItem fs item = some (Snap.file c)) :
    lookupFS fs (comps item) = some c := by
  unfold snapItem at h
  by_cases h1 : isFileFS fs (comps item) = true
  · rw [if_pos h1] at h
    cases hl : lookupFS fs (comps item) with
    | none => rw [hl] at h; exact Option.noConfusion h
    | some c' =>
      rw [hl] at h
      simp only [Option.map_some'] at h  -- h : some (Snap.file c') = some (Snap.file c)
      cases h
      rfl
  · rw [if_neg h1] at h
    by_cases h2 : isDirFS fs (comps item) = true
    · rw [if_pos h2] at h
      cases h
    · rw [if_neg h2] at h
      exact Option.noConfusion h

theorem snapItem_dir_eq (fs : FS) (item : List Char) (sub : List (RPath × Bytes))
    (h : snapItem fs item = some (Snap.dir sub)) :
    sub = subtreeFS fs (comps item) := by
  unfold snapItem at h
  by_cases h1 : isFileFS fs (comps item) = true
  · rw [if_pos h1] at h
    cases hl : lookupFS fs (comps item) with
    | none => rw [hl] at h; exact Option.noConfusion h
    | some c' => rw [hl] at h; simp only [Option.map_some'] at h; cases h
  · rw [if_neg h1] at h
    by_cases h2 : isDirFS fs (comps item) = true
    · rw [if_pos h2] at h
      cases h
      rfl
    · rw [if_neg h2] at h
      exact Option.noConfusion h

theorem restoreItem_lookup_of_not (cur : FS) (item : List Char) (s : Snap) (q : RPath)
    (h : (comps item).isPrefixOf q = false) :
    lookupFS (restoreItem cur item s) q = lookupFS cur q := by
  cases s with
  | file c =>
    exact lookupFS_writeFS_ne cur (comps item) c q
      (fun he => by rw [← he, isPrefixOf_self] at h; exact Bool.noConfusion h)
  | dir sub =>
    unfold restoreItem
    rw [lookupFS_append_none _ _ _ (lookupFS_mapSub_of_not sub (comps item) q h)]
    exact lookupFS_removeAtUnder_of_not cur (comps item) q h

theorem restoreItem_dir_reset (cur fs : FS) (item : List Char) (q : RPath)
    (h : (comps item).isPrefixOf q = true) :
    lookupFS (restoreItem cur item (Snap.dir (subtreeFS fs (comps item)))) q =
      lookupFS fs q := by
  have hq : q = comps item ++ q.drop (comps item).length := eq_append_of_isPrefixOf _ _ h
  unfold restoreItem
  have hrt := lookupFS_mapSub_subtree fs (comps item) (q.drop (comps item).length)
  rw [← hq] at hrt
  cases hm : lookupFS ((subtreeFS fs (comps item)).map
      (fun e => (comps item ++ e.1, e.2))) q with
  | none =>
    rw [lookupFS_append_none _ _ _ hm, lookupFS_removeAtUnder_inside _ _ _ h,
      ← hrt, hm]
  | some c =>
    rw [lookupFS_append_some _ _ _ _ hm, ← hrt, hm]

theorem restoreAll_keeps (fs : FS) (q : RPath) :
    ∀ (items : List (List Char)) (cur : FS),
      lookupFS cur q = lookupFS fs q →
      lookupFS (restoreAll cur (mkBackup fs items)) q = lookupFS fs q := by
  intro items
  induction items with
  | nil => intro cur h; exact h
  | cons it rest ih =>
    intro cur h
    rw [mkBackup, List.filterMap_cons]
    cases hs : snapItem fs it with
    | none =>
      simp only [Option.map_none']
      exact ih cur h
    | some s =>
      simp only [Option.map_some']
      have hstep : restoreAll cur ((it, s) :: rest.filterMap
          (fun i => (snapItem fs i).map (fun sn => (i, sn)))) =
          restoreAll (restoreItem cur it s) (mkBackup fs rest) := by
        rw [restoreAll, List.foldl_cons, ← restoreAll, mkBackup]
      rw [hstep]
      apply ih
      by_cases hp : (comps it).isPrefixOf q = true
      · cases s with
        | file c =>
          have hc := snapItem_file_eq fs it c hs
          by_cases hq : q = comps it
          · subst hq
            rw [restoreItem, lookupFS_writeFS_self, hc]
          · have : lookupFS (restoreItem cur it (Snap.file c)) q = lookupFS cur q :=
              lookupFS_writeFS_ne cur (comps it) c q hq
            rw [this, h]
        | dir sub =>
          have hsub := snapItem_dir_eq fs it sub hs
          rw [hsub]
          exact restoreItem_dir_reset cur fs it q hp
      · rw [restoreItem_lookup_of_not cur it s q (by
          rw [Bool.not_eq_true] at hp
          exact hp)]
        exact h

/-- Master preservation lemma: any path whose rendered string is matched
by the merge-loop skip test is left with its original content by every
`update_via_zip` run, successful or not. -/
theorem update_via_zip_keeps (fs : FS) (d : Bool) (a : List ExtEntry)
    (f : Option Nat) (q : RPath) (hq : skipTest q = true) :
    lookupFS (update_via_zip fs d a f).fs q = lookupFS fs q := by
  unfold update_via_zip
  cases d with
  | false => rfl
  | true =>
    cases a with
    | nil => rfl
    | cons src rest =>
      simp only [Bool.not_true]
      have hm := mergeGo_lookup_of_skip f q hq (walkFiles src) fs 0
      by_cases hf : (mergeGo f fs (walkFiles src) 0).failed = true
      · simp only [if_false, hf, if_true]
        exact hm
      · rw [Bool.not_eq_true] at hf
        simp only [if_false, hf]
        exact restoreAll_keeps fs q preserveItems _ hm

/-! ### Helper lemmas about the orchestrator -/

theorem configBackupPath_ne (ts : List Char) : configBackupPath ts ≠ configPath := by
  intro h
  have hc : configPath = ["config".toList, "config.yaml".toList] := by decide
  rw [hc, configBackupPath] at h
  injection h with h1 h2
  injection h2 with h3 h4
  have hlen := congrArg List.length h3
  rw [List.length_append] at hlen
  have hA : ("config.yaml.backup.".toList).length = 19 := by decide
  have hB : ("config.yaml".toList).length = 11 := by decide
  omega

theorem backup_config_ok_lookup (fs0 : FS) (ts : List Char) (fs1 : FS)
    (bp : Option RPath) (hb : backup_config fs0 ts = Except.ok (fs1, bp))
    (q : RPath) (hq : q ≠ configBackupPath ts) :
    lookupFS fs1 q = lookupFS fs0 q := by
  unfold backup_config at hb
  by_cases he : existsFS fs0 configPath = true
  · rw [if_pos he] at hb
    cases hl0 : lookupFS fs0 configPath with
    | none => rw [hl0] at hb; exact Except.noConfusion hb
    | some c =>
      rw [hl0] at hb
      injection hb with h1
      rw [Prod.mk.injEq] at h1
      obtain ⟨h2, -⟩ := h1
      rw [← h2]
      exact lookupFS_writeFS_ne fs0 _ c q hq
  · rw [if_neg he] at hb
    injection hb with h1
    rw [Prod.mk.injEq] at h1
    obtain ⟨h2, -⟩ := h1
    rw [← h2]

theorem backup_config_ok_exists_req (fs0 : FS) (ts : List Char) (fs1 : FS)
    (bp : Option RPath) (hb : backup_config fs0 ts = Except.ok (fs1, bp)) :
    existsFS fs1 reqPath = existsFS fs0 reqPath := by
  unfold backup_config at hb
  by_cases he : existsFS fs0 configPath = true
  · rw [if_pos he] at hb
    cases hl0 : lookupFS fs0 configPath with
    | none => rw [hl0] at hb; exact Except.noConfusion hb
    | some c =>
      rw [hl0] at hb
      injection hb with h1
      rw [Prod.mk.injEq] at h1
      obtain ⟨h2, -⟩ := h1
      rw [← h2]
      exact existsFS_writeFS_of_not fs0 _ c reqPath rfl
  · rw [if_neg he] at hb
    injection hb with h1
    rw [Prod.mk.injEq] at h1
    obtain ⟨h2, -⟩ := h1
    rw [← h2]

theorem update_via_zip_cons_eq (fs : FS) (src : ExtEntry) (rest : List ExtEntry)
    (f : Option Nat) :
    update_via_zip fs true (src :: rest) f =
      if (mergeGo f fs (walkFiles src) 0).failed then
        ⟨(mergeGo f fs (walkFiles src) 0).fs, .pair false false,
          (mergeGo f fs (walkFiles src) 0).copied, false, true⟩
      else
        ⟨restoreAll (mergeGo f fs (walkFiles src) 0).fs (mkBackup fs preserveItems),
          .pair true (if existsFS fs reqPath && existsFS (entryFiles src) reqPath
            then check_requirements_changed fs reqPath (entryFiles src) reqPath
            else false),
          (mergeGo f fs (walkFiles src) 0).copied, true, false⟩ := rfl

theorem update_via_zip_cons_failed (fs : FS) (src : ExtEntry) (rest : List ExtEntry)
    (f : Option Nat) (hf : (mergeGo f fs (walkFiles src) 0).failed = true) :
    update_via_zip fs true (src :: rest) f =
      ⟨(mergeGo f fs (walkFiles src) 0).fs, .pair false false,
        (mergeGo f fs (walkFiles src) 0).copied, false, true⟩ := by
  rw [update_via_zip_cons_eq, if_pos hf]

/-! ### Claim theorems -/

/-- C2: after a successful `update_via_zip` run, every path at or below a
preserved item has byte-identical content, regardless of whether the
merge source also ships a file there; and the merge copy loop on its own
never overwrites any such path (it is skipped at copy time). -/
theorem preserved_paths_byte_identical (fs : FS) (d : Bool) (a : List ExtEntry)
    (f : Option Nat) (item : List Char) (hit : item ∈ preserveItems) (q : RPath)
    (hq : (comps item).isPrefixOf q = true)
    (hs : (update_via_zip fs d a f).succeeded = true)
    (fs' : FS) (src' : ExtEntry) (f' : Option Nat) (n : Nat) :
    lookupFS (update_via_zip fs d a f).fs q = lookupFS fs q ∧
    lookupFS (mergeGo f' fs' (walkFiles src') n).fs q = lookupFS fs' q := by
  have hsk := skipTest_of_comps_le item hit q hq
  exact ⟨update_via_zip_keeps fs d a f q hsk,
    mergeGo_lookup_of_skip f' q hsk (walkFiles src') fs' n⟩

/-- Witness for C2: a successful run over a tree with a preserved log file
that the merge source also ships with different content. -/
theorem preserved_paths_byte_identical_witness :
    lookupFS (update_via_zip wFS true wArc none).fs wLogPath = lookupFS wFS wLogPath ∧
    lookupFS (mergeGo none wFS (walkFiles wSrc) 0).fs wLogPath = lookupFS wFS wLogPath :=
  preserved_paths_byte_identical wFS true wArc none ("logs".toList) (by decide)
    wLogPath (by decide) (by decide) wFS wSrc none 0

/-- C7: an extraction directory with zero entries makes the run fail with
an explicit error: an error message is printed and the bare `False` is
returned, never the success tuple — so it cannot be reported as a success
with zero files updated. -/
theorem empty_extraction_fails_explicitly (fs : FS) (f : Option Nat) :
    (update_via_zip fs true [] f).ret = ZipRet.bare ∧
    (update_via_zip fs true [] f).errorPrinted = true ∧
    (update_via_zip fs true [] f).succeeded = false :=
  ⟨rfl, rfl, rfl⟩

/-- C9: the merge exclusion is raw string-prefix matching on the rendered
relative path: any path whose string merely starts with the text of some
preserve item is skipped and never copied, so its live content is
unchanged by the whole run. -/
theorem textual_prefix_match_skips_file (fs : FS) (d : Bool) (a : List ExtEntry)
    (f : Option Nat) (q : RPath)
    (h : ∃ p, p ∈ preserveItems ∧ p.isPrefixOf (pathStr q) = true) :
    lookupFS (update_via_zip fs d a f).fs q = lookupFS fs q := by
  apply update_via_zip_keeps
  rw [skipTest, List.any_eq_true]
  obtain ⟨p, hp, hpre⟩ := h
  exact ⟨p, hp, hpre⟩

/-- Witness for C9: `logs.txt` (against preserved `logs`) and
`config/config.yaml.example` (against preserved `config/config.yaml`)
keep their old content although the source ships new versions, and
`logs.txt` is neither the preserved path nor inside it. -/
theorem textual_prefix_match_skips_file_witness :
    (lookupFS (update_via_zip wFS true wArc none).fs (["logs.txt".toList]) =
      lookupFS wFS (["logs.txt".toList])) ∧
    (lookupFS (update_via_zip wExFS true wExArc none).fs wExPath =
      lookupFS wExFS wExPath) ∧
    (comps "logs".toList ≠ ["logs.txt".toList] ∧
      (comps "logs".toList).isPrefixOf (["logs.txt".toList]) = false) :=
  ⟨textual_prefix_match_skips_file wFS true wArc none (["logs.txt".toList])
      ⟨"logs".toList, by decide, by decide⟩,
   textual_prefix_match_skips_file wExFS true wExArc none wExPath
      ⟨"config/config.yaml".toList, by decide, by decide⟩,
   by decide⟩

/-- C10: when the first extracted entry is a regular file, the merge walk
over it visits no files and the run returns the success tuple with a
files-updated count of zero. -/
theorem file_entry_source_zero_updates (fs : FS) (nm : Comp) (c : Bytes)
    (rest : List ExtEntry) (f : Option Nat) :
    (update_via_zip fs true (ExtEntry.file nm c :: rest) f).ret = ZipRet.pair true false ∧
    (update_via_zip fs true (ExtEntry.file nm c :: rest) f).filesUpdated = 0 := by
  have h : update_via_zip fs true (ExtEntry.file nm c :: rest) f =
      ⟨restoreAll fs (mkBackup fs preserveItems),
        .pair true (if existsFS fs reqPath && existsFS (entryFiles (ExtEntry.file nm c)) reqPath
          then check_requirements_changed fs reqPath (entryFiles (ExtEntry.file nm c)) reqPath
          else false), 0, true, false⟩ := rfl
  rw [h]
  have h2 : existsFS (entryFiles (ExtEntry.file nm c)) reqPath = false := rfl
  rw [h2, Bool.and_false]
  exact ⟨rfl, rfl⟩

/-- C1 (code bug): when the download fails after the backup was taken, the
bare `False` returned at line 169 cannot be unpacked as a tuple at line
296; the run crashes with a `TypeError` (exit code 1), `restore_config`
is never invoked, and the configuration content is unchanged only
because nothing had written to it yet. -/
theorem download_fail_crashes_without_restore (fs0 : FS) (ts : List Char)
    (archive : List ExtEntry) (f : Option Nat) (dr po pe : List Char) (px : Int) :
    (main fs0 ts "y".toList false archive f dr po pe px).crashed = true ∧
    (main fs0 ts "y".toList false archive f dr po pe px).exitCode = 1 ∧
    (main fs0 ts "y".toList false archive f dr po pe px).configRestored = false ∧
    lookupFS (main fs0 ts "y".toList false archive f dr po pe px).fs configPath =
      lookupFS fs0 configPath := by
  unfold main
  cases hb : backup_config fs0 ts with
  | error e => exact ⟨rfl, rfl, rfl, rfl⟩
  | ok pr =>
    obtain ⟨fs1, bp⟩ := pr
    dsimp only
    rw [if_neg (by decide : ¬(normalizeResp "y".toList ≠ "y".toList))]
    refine ⟨rfl, rfl, rfl, ?_⟩
    exact backup_config_ok_lookup fs0 ts fs1 bp hb configPath
      (Ne.symm (configBackupPath_ne ts))

/-- C3 counterexample: with two mergeable files and a copy failure injected
at the second copy, one file was already copied, the exception handler
returns the failure tuple, and the preservation restore loop does not
run — refuting the claim that restore still runs after a partial merge. -/
theorem merge_abort_skips_restore_cex :
    (update_via_zip wFS true c3Arc (some 1)).filesUpdated = 1 ∧
    (update_via_zip wFS true c3Arc (some 1)).ret = ZipRet.pair false false ∧
    (update_via_zip wFS true c3Arc (some 1)).restoreRan = false := by decide

/-- C3 amended: when the merge copy loop raises partway, the preservation
restore loop does not run — the exception handler returns `(False,
False)` directly; preserved paths nonetheless keep their pre-run content
because the merge skips them at copy time. -/
theorem merge_abort_no_restore_but_preserved (fs : FS) (src : ExtEntry)
    (rest : List ExtEntry) (f : Option Nat)
    (hf : (mergeGo f fs (walkFiles src) 0).failed = true)
    (q : RPath) (hq : skipTest q = true) :
    (update_via_zip fs true (src :: rest) f).restoreRan = false ∧
    (update_via_zip fs true (src :: rest) f).ret = ZipRet.pair false false ∧
    lookupFS (update_via_zip fs true (src :: rest) f).fs q = lookupFS fs q := by
  rw [update_via_zip_cons_failed fs src rest f hf]
  exact ⟨rfl, rfl, mergeGo_lookup_of_skip f q hq (walkFiles src) fs 0⟩

/-- Witness for the amended C3: the concrete aborted merge leaves the
configuration file untouched even though no restore ran. -/
theorem merge_abort_no_restore_but_preserved_witness :
    (update_via_zip wFS true c3Arc (some 1)).restoreRan = false ∧
    (update_via_zip wFS true c3Arc (some 1)).ret = ZipRet.pair false false ∧
    lookupFS (update_via_zip wFS true c3Arc (some 1)).fs configPath =
      lookupFS wFS configPath :=
  merge_abort_no_restore_but_preserved wFS
    (ExtEntry.dir "m".toList [(["a.py".toList], [9]), (["b.py".toList], [8])]) []
    (some 1) (by decide) configPath (by decide)

/-- C4 counterexample: declining the confirmation prompt still leaves a
newly created timestamped backup file on disk, because `backup_config`
runs before the prompt — refuting "no file created or modified". -/
theorem decline_creates_backup_cex :
    (main c4FS "20250101".toList "n".toList true [] none [] [] [] 0).cancelled = true ∧
    lookupFS (main c4FS "20250101".toList "n".toList true [] none [] [] [] 0).fs
      (configBackupPath "20250101".toList) = some [97] ∧
    lookupFS c4FS (configBackupPath "20250101".toList) = none := by decide

/-- C4 amended: any non-affirmative input ends the run before the update
starts; the only disk effect is the timestamped configuration backup
already created before the prompt, and every other path is unchanged. -/
theorem decline_no_other_side_effects (fs0 : FS) (ts resp : List Char) (d : Bool)
    (arc : List ExtEntry) (f : Option Nat) (dr po pe : List Char) (px : Int)
    (fs1 : FS) (bp : Option RPath)
    (hb : backup_config fs0 ts = Except.ok (fs1, bp))
    (hr : normalizeResp resp ≠ "y".toList)
    (q : RPath) (hq : q ≠ configBackupPath ts) :
    (main fs0 ts resp d arc f dr po pe px).cancelled = true ∧
    (main fs0 ts resp d arc f dr po pe px).fs = fs1 ∧
    lookupFS (main fs0 ts resp d arc f dr po pe px).fs q = lookupFS fs0 q := by
  have hm : main fs0 ts resp d arc f dr po pe px =
      ⟨fs1, 0, false, true, false, false, []⟩ := by
    unfold main
    cases hbc : backup_config fs0 ts with
    | error e => rw [hbc] at hb; exact Except.noConfusion hb
    | ok pr =>
      obtain ⟨fs1', bp'⟩ := pr
      rw [hbc] at hb
      injection hb with h1
      rw [Prod.mk.injEq] at h1
      obtain ⟨h2, h3⟩ := h1
      subst h2
      subst h3
      dsimp only
      rw [if_pos hr]
  rw [hm]
  exact ⟨rfl, rfl, backup_config_ok_lookup fs0 ts fs1 bp hb q hq⟩

/-- Witness for the amended C4: a declined run with the configuration file
present leaves the configuration path itself untouched. -/
theorem decline_no_other_side_effects_witness :
    (main c4FS "20250101".toList "n".toList true [] none [] [] [] 0).cancelled = true ∧
    (main c4FS "20250101".toList "n".toList true [] none [] [] [] 0).fs =
      writeFS c4FS (configBackupPath "20250101".toList) [97] ∧
    lookupFS (main c4FS "20250101".toList "n".toList true [] none [] [] [] 0).fs
      configPath = lookupFS c4FS configPath :=
  decline_no_other_side_effects c4FS "20250101".toList "n".toList true [] none
    [] [] [] 0 (writeFS c4FS (configBackupPath "20250101".toList) [97])
    (some (configBackupPath "20250101".toList)) rfl (by decide)
    configPath (by decide)

/-- C5 counterexample: two existing manifests whose bytes differ (CRLF vs
LF line ending) are reported as unchanged, because the comparison is on
text-mode reads with universal-newline translation, not on raw bytes —
refuting "returns false iff byte-for-byte identical". -/
theorem newline_byte_diff_reports_unchanged_cex :
    check_requirements_changed c5FS (["old.txt".toList]) c5FS (["new.txt".toList]) = false ∧
    lookupFS c5FS (["old.txt".toList]) = some [97, 13, 10] ∧
    lookupFS c5FS (["new.txt".toList]) = some [97, 10] ∧
    ([97, 13, 10] : Bytes) ≠ [97, 10] := by decide

/-- C5 amended: for existing manifests, `check_requirements_changed`
returns false iff both files read successfully in text mode (UTF-8
decoding plus universal-newline translation) and the resulting texts are
equal; so identical decodable files yield false and a byte difference
yields true exactly when it survives decoding and newline translation. -/
theorem req_changed_false_iff_texts_eq (fsO : FS) (oldP : RPath) (fsN : FS)
    (newP : RPath) (hO : existsFS fsO oldP = true) (hN : existsFS fsN newP = true) :
    check_requirements_changed fsO oldP fsN newP = false ↔
      ∃ t, readText fsO oldP = some t ∧ readText fsN newP = some t := by
  unfold check_requirements_changed
  rw [hO, hN]
  simp only [Bool.not_true, Bool.or_self, Bool.false_eq_true, if_false]
  cases ha : readText fsO oldP with
  | none => simp
  | some a =>
    cases hb2 : readText fsN newP with
    | none => simp
    | some b =>
      by_cases hab : a = b
      · subst hab
        simp
      · simp [hab]
        intro he
        exact hab he.symm

/-- Witness for the amended C5: the CRLF/LF pair instantiates the
equivalence, with both reads returning the same translated text. -/
theorem req_changed_false_iff_texts_eq_witness :
    check_requirements_changed c5FS (["old.txt".toList]) c5FS (["new.txt".toList]) = false ↔
      ∃ t, readText c5FS (["old.txt".toList]) = some t ∧
        readText c5FS (["new.txt".toList]) = some t :=
  req_changed_false_iff_texts_eq c5FS (["old.txt".toList]) c5FS (["new.txt".toList])
    (by decide) (by decide)

/-- C6 counterexample: the old manifest is missing and the new one is
shipped; the merge succeeds (the new `app.py` is in place) yet the
reinstall prompt is not shown — refuting the claim that a missing
manifest makes the pipeline report a dependency change. -/
theorem missing_manifest_no_prompt_cex :
    existsFS c6FS reqPath = false ∧
    lookupFS (main c6FS "T".toList "y".toList true [c6Src] none "y".toList [] [] 0).fs
      (["app.py".toList]) = some [9] ∧
    (main c6FS "T".toList "y".toList true [c6Src] none "y".toList [] [] 0).depPromptShown
      = false := by decide

/-- C6 amended: `check_requirements_changed` itself does report a change
when either manifest is missing, but `update_via_zip` only consults it
when both manifests exist, so with a missing manifest the
requirements-changed flag is false and the reinstall prompt is never
shown. -/
theorem missing_manifest_skips_diff (fs0 : FS) (ts resp : List Char)
    (arc : List ExtEntry) (f : Option Nat) (dr po pe : List Char) (px : Int)
    (src : ExtEntry) (rest : List ExtEntry) (ha : arc = src :: rest)
    (h : existsFS fs0 reqPath = false ∨ existsFS (entryFiles src) reqPath = false) :
    check_requirements_changed fs0 reqPath (entryFiles src) reqPath = true ∧
    (main fs0 ts resp true arc f dr po pe px).depPromptShown = false := by
  constructor
  · unfold check_requirements_changed
    cases h with
    | inl h1 => rw [h1]; rfl
    | inr h2 =>
      rw [h2]
      by_cases h3 : existsFS fs0 reqPath = true
      · rw [h3]; rfl
      · rw [Bool.not_eq_true] at h3; rw [h3]; rfl
  · subst ha
    unfold main
    cases hbc : backup_config fs0 ts with
    | error e => rfl
    | ok pr =>
      obtain ⟨fs1, bp⟩ := pr
      dsimp only
      by_cases hr : normalizeResp resp ≠ "y".toList
      · rw [if_pos hr]
      · rw [if_neg hr]
        have hrc : (existsFS fs1 reqPath && existsFS (entryFiles src) reqPath) = false := by
          cases h with
          | inl h1 =>
            rw [backup_config_ok_exists_req fs0 ts fs1 bp hbc, h1, Bool.false_and]
          | inr h2 => rw [h2, Bool.and_false]
        by_cases hf : (mergeGo f fs1 (walkFiles src) 0).failed = true
        · rw [update_via_zip_cons_failed fs1 src rest f hf]
          dsimp only
          cases bp with
          | none => rfl
          | some p =>
            dsimp only
            cases hrr : restore_config (mergeGo f fs1 (walkFiles src) 0).fs p with
            | error e => rfl
            | ok pr2 =>
              obtain ⟨fs2, did⟩ := pr2
              rfl
        · rw [Bool.not_eq_true] at hf
          have hz : update_via_zip fs1 true (src :: rest) f =
              ⟨restoreAll (mergeGo f fs1 (walkFiles src) 0).fs (mkBackup fs1 preserveItems),
                .pair true false, (mergeGo f fs1 (walkFiles src) 0).copied, true, false⟩ := by
            rw [update_via_zip_cons_eq, hf, hrc]
            rfl
          rw [hz]
          rfl

/-- Witness for the amended C6: concrete run with the old manifest
missing; the helper reports a change but no prompt is shown. -/
theorem missing_manifest_skips_diff_witness :
    check_requirements_changed c6FS reqPath (entryFiles c6Src) reqPath = true ∧
    (main c6FS "T".toList "y".toList true [c6Src] none "y".toList [] [] 0).depPromptShown
      = false :=
  missing_manifest_skips_diff c6FS "T".toList "y".toList [c6Src] none
    "y".toList [] [] 0 c6Src [] rfl (Or.inl (by decide))

/-- C8 (code bug): after a successful merge with a changed manifest and an
affirmative reinstall answer, a non-zero pip exit status produces the
info/info/success message sequence — no error is reported, because
`run_command` swallows `CalledProcessError` and `update_dependencies`
never inspects the returned exit code — while the merged tree is indeed
not rolled back (the new `app.py` stays in place) and the process exits 0. -/
theorem pip_failure_reported_as_success :
    (main c8FS "T".toList "y".toList true [c8Src] none "y".toList [] [] 1).depMsgs =
      [MsgKind.info, MsgKind.info, MsgKind.success] ∧
    MsgKind.error ∉
      (main c8FS "T".toList "y".toList true [c8Src] none "y".toList [] [] 1).depMsgs ∧
    lookupFS (main c8FS "T".toList "y".toList true [c8Src] none "y".toList [] [] 1).fs
      (["app.py".toList]) = some [7] ∧
    (main c8FS "T".toList "y".toList true [c8Src] none "y".toList [] [] 1).exitCode = 0 ∧
    run_command [] [] 1 true = (none, "CalledProcessError".toList, 1) := by decide

end MsxUpdate
